import Mathlib

/-!
Shallow embedding of the audio synthesis and track-rendering engine of the
`music` repository (files `electric_music_composer.py` and
`music_composer_with_score.py`).  Durations, beat offsets, velocities and
envelope parameters are embedded as exact rationals; waveform sample values
are embedded as real numbers.  Fallible NumPy operations (shape-mismatched
slice assignment, `linspace` with a negative sample count) are modelled with
`Option`.  The process-wide NumPy random state used by the noise percussion
is modelled as a stream of draws together with an explicit cursor.
-/

namespace Music

/-- The process-wide sampling rate, `SAMPLE_RATE = 44100`. -/
def SAMPLE_RATE : ℕ := 44100

/-- Python `int(x)` / NumPy float→int conversion: truncation toward zero. -/
def pyInt {α : Type} [LinearOrderedField α] [FloorRing α] (x : α) : ℤ :=
  if x < 0 then ⌈x⌉ else ⌊x⌋

/-- Number of samples allocated by the generators: `int(SAMPLE_RATE * duration)`. -/
def numSamples (duration : ℚ) : ℤ :=
  pyInt ((SAMPLE_RATE : ℚ) * duration)

/-- `np.linspace(0, 1, k)` (with endpoint): entry `i` is `i / (k - 1)`;
for `k = 1` the single entry is `0`. -/
def linspace01 (k : ℕ) : List ℚ :=
  (List.range k).map (fun (i : ℕ) => (i : ℚ) / ((k : ℚ) - 1))

/-- `np.linspace(1, 0, k)` (with endpoint): entry `i` is `1 - i / (k - 1)`;
for `k = 1` the single entry is `1`. -/
def linspace10 (k : ℕ) : List ℚ :=
  (List.range k).map (fun (i : ℕ) => 1 - (i : ℚ) / ((k : ℚ) - 1))

/-- Overwrite the first `p.length` entries of `l` with `p`
(NumPy `l[:len(p)] = p`, used only when `p.length ≤ l.length`). -/
def writeHead (l p : List ℚ) : List ℚ :=
  p ++ l.drop p.length

/-- Overwrite the last `s.length` entries of `l` with `s`
(NumPy `l[-len(s):] = s`, used only when `s.length ≤ l.length`). -/
def writeTail (l s : List ℚ) : List ℚ :=
  l.take (l.length - s.length) ++ s

/-- Attack statement of `Synthesizer._apply_envelope` of
`music_composer_with_score.py`: starting from ones, the attack ramp is
written only when `0 < attack_samples < samples` (it is skipped entirely
otherwise). -/
def scoreAttackStage (samples : ℕ) (attack : ℚ) : List ℚ :=
  if 0 < pyInt (attack * (SAMPLE_RATE : ℚ)) ∧
      pyInt (attack * (SAMPLE_RATE : ℚ)) < (samples : ℤ) then
    writeHead (List.replicate samples 1)
      (linspace01 (pyInt (attack * (SAMPLE_RATE : ℚ))).toNat)
  else List.replicate samples 1

/-- Envelope multiplier built by `Synthesizer._apply_envelope` of
`music_composer_with_score.py`: the attack stage, then the release ramp is
written only when `0 < release_samples < samples` (skipped otherwise; the
release assignment overwrites the attack in any overlap). -/
def scoreEnvelope (samples : ℕ) (attack release : ℚ) : List ℚ :=
  if 0 < pyInt (release * (SAMPLE_RATE : ℚ)) ∧
      pyInt (release * (SAMPLE_RATE : ℚ)) < (samples : ℤ) then
    writeTail (scoreAttackStage samples attack)
      (linspace10 (pyInt (release * (SAMPLE_RATE : ℚ))).toNat)
  else scoreAttackStage samples attack

/-- Attack statement of `Synthesizer._apply_envelope` of
`electric_music_composer.py`: the guard checks only `attack_samples > 0`, so
the slice assignment `envelope[:attack_samples] = np.linspace(0, 1,
attack_samples)` raises a broadcast error (`none`) whenever the ramp is
longer than the buffer — except for the degenerate size-one broadcast into an
empty slice, which writes nothing. -/
def electricAttackStage (samples : ℕ) (attack : ℚ) : Option (List ℚ) :=
  if 0 < pyInt (attack * (SAMPLE_RATE : ℚ)) then
    if pyInt (attack * (SAMPLE_RATE : ℚ)) ≤ (samples : ℤ) then
      some (writeHead (List.replicate samples 1)
        (linspace01 (pyInt (attack * (SAMPLE_RATE : ℚ))).toNat))
    else if pyInt (attack * (SAMPLE_RATE : ℚ)) = 1 then
      some (List.replicate samples 1)
    else none
  else some (List.replicate samples 1)

/-- Envelope multiplier built by `Synthesizer._apply_envelope` of
`electric_music_composer.py`: the attack stage followed by the analogous
release assignment `envelope[-release_samples:] = np.linspace(1, 0,
release_samples)`, again a broadcast error when the ramp exceeds the
buffer. -/
def electricEnvelope (samples : ℕ) (attack release : ℚ) : Option (List ℚ) :=
  (electricAttackStage samples attack).bind (fun e1 =>
    if 0 < pyInt (release * (SAMPLE_RATE : ℚ)) then
      if pyInt (release * (SAMPLE_RATE : ℚ)) ≤ (samples : ℤ) then
        some (writeTail e1 (linspace10 (pyInt (release * (SAMPLE_RATE : ℚ))).toNat))
      else if pyInt (release * (SAMPLE_RATE : ℚ)) = 1 then some e1
      else none
    else some e1)

/-- Start offset of a note in the track buffer,
`int(note.start_beat * self.beat_duration * SAMPLE_RATE)`. -/
def startSample (start_beat beat_duration : ℚ) : ℤ :=
  pyInt (start_beat * beat_duration * (SAMPLE_RATE : ℚ))

/-- Two's-complement wrap to a signed 16-bit integer, the effect of NumPy
`astype(np.int16)` on an out-of-range integer. -/
def int16OfInt (z : ℤ) : ℤ :=
  (z + 32768) % 65536 - 32768

/-- The twelve semitone names, `NOTE_NAMES` of `music_composer_with_score.py`. -/
def NOTE_NAMES : List String :=
  ["C", "C#", "D", "D#", "E", "F"] ++ ["F#", "G", "G#", "A", "A#", "B"]

/-- Key/semitone pairs produced by the generation loop of
`music_composer_with_score.py`: for each octave in `range(2, 7)` and each
indexed name, the key `f"{note}{octave}"` and the exponent
`semitones_from_a4 = (octave - 4) * 12 + (i - 9)`. -/
def scoreKeySemis : List (String × ℤ) :=
  (List.range' 2 5).flatMap (fun octave =>
    (List.range 12).map (fun i =>
      (NOTE_NAMES.getD i "" ++ toString octave,
        ((octave : ℤ) - 4) * 12 + ((i : ℤ) - 9))))

/-- The hand-maintained table `NOTE_FREQUENCIES` of
`electric_music_composer.py` (two-decimal literals, octaves C3–B5, with the
sharps of octave 5 absent). -/
def electricNoteFrequencies : List (String × ℚ) :=
  [("C3", 130.81), ("C#3", 138.59), ("D3", 146.83), ("D#3", 155.56),
   ("E3", 164.81), ("F3", 174.61), ("F#3", 185.00), ("G3", 196.00),
   ("G#3", 207.65), ("A3", 220.00), ("A#3", 233.08), ("B3", 246.94),
   ("C4", 261.63), ("C#4", 277.18), ("D4", 293.66), ("D#4", 311.13),
   ("E4", 329.63), ("F4", 349.23), ("F#4", 369.99), ("G4", 392.00),
   ("G#4", 415.30), ("A4", 440.00), ("A#4", 466.16), ("B4", 493.88),
   ("C5", 523.25), ("D5", 587.33), ("E5", 659.25), ("F5", 698.46),
   ("G5", 783.99), ("A5", 880.00), ("B5", 987.77)]

/-- `MusicComposer.get_frequency` of `electric_music_composer.py`:
`NOTE_FREQUENCIES.get(note, 440.0)`. -/
def electricGetFrequency (note : String) : ℚ :=
  (electricNoteFrequencies.lookup note).getD 440

/-- A note of the score editor (`Note` of `music_composer_with_score.py`). -/
structure Note where
  pitch : String
  start_beat : ℚ
  duration : ℚ
  velocity : ℚ

/-- A track (`Track` of `music_composer_with_score.py`). -/
structure Track where
  name : String
  instrument_type : String
  notes : List Note
  muted : Bool
  volume : ℚ

noncomputable section

/-- The equal-temperament value stored per entry of the generated table:
`440.0 * (2 ** (semitones_from_a4 / 12))`. -/
def etFreq (s : ℤ) : ℝ :=
  440 * (2 : ℝ) ^ ((s : ℝ) / 12)

/-- The generated table `NOTE_FREQUENCIES` of `music_composer_with_score.py`:
for each octave in `range(2, 7)` and indexed name, the key maps to
`440.0 * (2 ** (semitones_from_a4 / 12))`. -/
def scoreFreqTable : List (String × ℝ) :=
  (List.range' 2 5).flatMap (fun octave =>
    (List.range 12).map (fun i =>
      (NOTE_NAMES.getD i "" ++ toString octave,
        etFreq (((octave : ℤ) - 4) * 12 + ((i : ℤ) - 9)))))

/-- `Note.get_frequency` of `music_composer_with_score.py`:
`NOTE_FREQUENCIES.get(self.pitch, 440.0)`. -/
def scoreGetFrequency (pitch : String) : ℝ :=
  (scoreFreqTable.lookup pitch).getD 440

/-- `np.linspace(a, b, n, False)` (half-open): entry `i` is `a + (b - a)·i/n`. -/
def linspace (a b : ℝ) (n : ℕ) : List ℝ :=
  (List.range n).map (fun (i : ℕ) => a + (b - a) * (i : ℝ) / (n : ℝ))

/-- The sample-time grid `t = np.linspace(0, duration, int(SAMPLE_RATE * duration), False)`;
`none` models the `ValueError` NumPy raises when the sample count is negative. -/
def mkTimes (duration : ℚ) : Option (List ℝ) :=
  if numSamples duration < 0 then none
  else some (linspace 0 (duration : ℝ) (numSamples duration).toNat)

/-- Shape a wave with the score-variant envelope: `wave * envelope` elementwise
(the `duration` argument of `_apply_envelope` is unused by its body). -/
def score_apply_envelope (wave : List ℝ) (duration attack release : ℚ) : List ℝ :=
  wave.zipWith (fun w e => w * e)
    ((scoreEnvelope wave.length attack release).map (fun (e : ℚ) => (e : ℝ)))

/-- Shape a wave with the electric-variant envelope; `none` models the
broadcast error raised for ramps longer than the buffer. -/
def electric_apply_envelope (wave : List ℝ) (duration attack release : ℚ) :
    Option (List ℝ) :=
  (electricEnvelope wave.length attack release).map (fun env =>
    wave.zipWith (fun w e => w * e) (env.map (fun (e : ℚ) => (e : ℝ))))

/-- `Synthesizer.sine_wave` of `music_composer_with_score.py`:
`sin(2π f t) * velocity`, then the default envelope (attack 0.05, release 0.1). -/
def sine_wave (freq : ℝ) (duration velocity : ℚ) : Option (List ℝ) :=
  (mkTimes duration).map (fun t =>
    score_apply_envelope
      (t.map (fun ti => Real.sin (2 * Real.pi * freq * ti) * (velocity : ℝ)))
      duration (1/20) (1/10))

/-- `Synthesizer.square_wave`: `sign(sin(2π f t)) * velocity * 0.5`,
then the default envelope. -/
def square_wave (freq : ℝ) (duration velocity : ℚ) : Option (List ℝ) :=
  (mkTimes duration).map (fun t =>
    score_apply_envelope
      (t.map (fun ti =>
        Real.sign (Real.sin (2 * Real.pi * freq * ti)) * (velocity : ℝ) * (1/2)))
      duration (1/20) (1/10))

/-- `Synthesizer.sawtooth_wave`: `2*(t·f - floor(0.5 + t·f)) * velocity * 0.5`,
then the default envelope. -/
def sawtooth_wave (freq : ℝ) (duration velocity : ℚ) : Option (List ℝ) :=
  (mkTimes duration).map (fun t =>
    score_apply_envelope
      (t.map (fun ti =>
        2 * (ti * freq - (⌊(1/2 : ℝ) + ti * freq⌋ : ℝ)) * (velocity : ℝ) * (1/2)))
      duration (1/20) (1/10))

/-- `Synthesizer.pad_sound`: three sine layers (weights 0.5 at `f`, 0.25 at
`2f`, 0.25 at `0.5f`) scaled by velocity, envelope attack 0.3, release 0.4. -/
def pad_sound (freq : ℝ) (duration velocity : ℚ) : Option (List ℝ) :=
  (mkTimes duration).map (fun t =>
    score_apply_envelope
      (t.map (fun ti =>
        (Real.sin (2 * Real.pi * freq * ti) * (1/2) +
         Real.sin (2 * Real.pi * (freq * 2) * ti) * (1/4) +
         Real.sin (2 * Real.pi * (freq * (1/2)) * ti) * (1/4)) * (velocity : ℝ)))
      duration (3/10) (2/5))

/-- `ElectricGuitar.clean_tone`: harmonic weights 0.6/0.25/0.1/0.05 at
`f`/`2f`/`3f`/`4f`, scaled by velocity, envelope attack 0.01, release 0.2. -/
def clean_tone (freq : ℝ) (duration velocity : ℚ) : Option (List ℝ) :=
  (mkTimes duration).map (fun t =>
    score_apply_envelope
      (t.map (fun ti =>
        (Real.sin (2 * Real.pi * freq * ti) * (3/5) +
         Real.sin (2 * Real.pi * (freq * 2) * ti) * (1/4) +
         Real.sin (2 * Real.pi * (freq * 3) * ti) * (1/10) +
         Real.sin (2 * Real.pi * (freq * 4) * ti) * (1/20)) * (velocity : ℝ)))
      duration (1/100) (1/5))

/-- `ElectricBass.finger_bass`: harmonic weights 0.7/0.2/0.1 at `f`/`2f`/`3f`,
scaled by velocity, envelope attack 0.02, release 0.15. -/
def finger_bass (freq : ℝ) (duration velocity : ℚ) : Option (List ℝ) :=
  (mkTimes duration).map (fun t =>
    score_apply_envelope
      (t.map (fun ti =>
        (Real.sin (2 * Real.pi * freq * ti) * (7/10) +
         Real.sin (2 * Real.pi * (freq * 2) * ti) * (1/5) +
         Real.sin (2 * Real.pi * (freq * 3) * ti) * (1/10)) * (velocity : ℝ)))
      duration (1/50) (3/20))

/-- `np.cumsum`: running partial sums (each entry includes the current one). -/
def cumsum (l : List ℝ) : List ℝ :=
  (l.scanl (· + ·) 0).drop 1

/-- `DrumMachine.kick`: instantaneous frequency `150·e^(-20t) + 40`, phase by
cumulative integration, waveform `sin(phase)·e^(-10t)·velocity`. -/
def kick (duration velocity : ℚ) : Option (List ℝ) :=
  (mkTimes duration).map (fun t =>
    let freq_envelope := t.map (fun ti => 150 * Real.exp (-ti * 20) + 40)
    let phase := cumsum (freq_envelope.map (fun f =>
      2 * Real.pi * f / (SAMPLE_RATE : ℝ)))
    phase.zipWith (fun p ti => Real.sin p * Real.exp (-ti * 10) * (velocity : ℝ)) t)

/-- `DrumMachine.snare`: tonal body `sin(2π·200·t)·e^(-20t)` plus the next
`len(t)` global uniform draws scaled by `e^(-15t)·0.5`, the sum scaled by
`velocity·0.8`; returns the advanced random cursor. -/
def snare (r : ℕ → ℚ) (pos : ℕ) (duration velocity : ℚ) :
    Option (List ℝ × ℕ) :=
  (mkTimes duration).map (fun t =>
    let tone := t.map (fun ti =>
      Real.sin (2 * Real.pi * 200 * ti) * Real.exp (-ti * 20))
    let noise := (List.range t.length).map (fun i => ((r (pos + i) : ℝ)))
    let scaledNoise := noise.zipWith (fun no ti =>
      no * Real.exp (-ti * 15) * (1/2)) t
    ((tone.zipWith (· + ·) scaledNoise).map (fun x => x * (velocity : ℝ) * (4/5)),
      pos + t.length))

/-- `DrumMachine.hihat`: the next `len(t)` global uniform draws scaled by
`e^(-30t)·velocity·0.4`; returns the advanced random cursor. -/
def hihat (r : ℕ → ℚ) (pos : ℕ) (duration velocity : ℚ) :
    Option (List ℝ × ℕ) :=
  (mkTimes duration).map (fun t =>
    let noise := (List.range t.length).map (fun i => ((r (pos + i) : ℝ)))
    (noise.zipWith (fun no ti =>
      no * Real.exp (-ti * 30) * (velocity : ℝ) * (2/5)) t,
      pos + t.length))

/-- `audio[start:end] += wave[:end - start]` with `end = min(start + len(wave),
len(audio))`, for a nonnegative start offset: entries of `audio` from index
`start` on receive the matching entry of `wave`, the rest are unchanged. -/
def overlayAdd (audio : List ℝ) (start : ℤ) (wave : List ℝ) : List ℝ :=
  audio.mapIdx (fun i a =>
    a + if start ≤ (i : ℤ) then wave.getD ((i : ℤ) - start).toNat 0 else 0)

/-- The per-note synthesis dispatch inside `MusicComposer.render_track` of
`music_composer_with_score.py`.  The bass voice halves the resolved frequency
(octave drop); drum notes pick the sub-voice by pitch name, and the
`continue` branches (unknown drum pitch, unknown instrument) contribute an
empty wave. -/
def noteWave (r : ℕ → ℚ) (pos : ℕ) (instrument : String) (note : Note)
    (beat_duration : ℚ) : Option (List ℝ × ℕ) :=
  if instrument = "synth" then
    (pad_sound (scoreGetFrequency note.pitch) (note.duration * beat_duration)
      note.velocity).map (fun w => (w, pos))
  else if instrument = "guitar" then
    (clean_tone (scoreGetFrequency note.pitch) (note.duration * beat_duration)
      note.velocity).map (fun w => (w, pos))
  else if instrument = "bass" then
    (finger_bass (scoreGetFrequency note.pitch / 2)
      (note.duration * beat_duration) note.velocity).map (fun w => (w, pos))
  else if instrument = "drums" then
    if note.pitch = "Kick" then (kick (3/10) note.velocity).map (fun w => (w, pos))
    else if note.pitch = "Snare" then snare r pos (1/5) note.velocity
    else if note.pitch = "HiHat" then hihat r pos (1/10) note.velocity
    else some ([], pos)
  else some ([], pos)

/-- `MusicComposer.render_track` of `music_composer_with_score.py`: allocate
`int(SAMPLE_RATE * total_beats * beat_duration)` zeros, additively write each
note's wave at `int(note.start_beat * beat_duration * SAMPLE_RATE)`, and scale
the buffer by `track.volume`.  `none` models a raised synthesis error. -/
def render_track (r : ℕ → ℚ) (pos : ℕ) (track : Track)
    (total_beats beat_duration : ℚ) : Option (List ℝ × ℕ) :=
  let total_samples := (pyInt ((SAMPLE_RATE : ℚ) * (total_beats * beat_duration))).toNat
  (track.notes.foldlM (fun (st : List ℝ × ℕ) note =>
      (noteWave r st.2 track.instrument_type note beat_duration).map
        (fun wp => (overlayAdd st.1 (startSample note.start_beat beat_duration) wp.1,
          wp.2)))
    (List.replicate total_samples (0 : ℝ), pos)).map
    (fun st => (st.1.map (fun x => x * (track.volume : ℝ)), st.2))

/-- `np.max(np.abs(mix))` (with `0` for the empty buffer, on which NumPy would
raise). -/
def peak (l : List ℝ) : ℝ :=
  l.foldl (fun m x => max m |x|) 0

/-- The normalization step shared by `MusicComposer.compose_from_tracks` and
`MusicComposer.compose`: when the peak is positive, scale by `0.9 / peak`;
otherwise leave the buffer untouched. -/
def normalizeMix (mix : List ℝ) : List ℝ :=
  if 0 < peak mix then mix.map (fun x => x / peak mix * (9/10)) else mix

/-- The sample conversion of `MusicComposer.save_wav`:
`(audio * 32767).astype(np.int16)` — scale, truncate toward zero, wrap to
16 bits. -/
def save_wav_samples (audio : List ℝ) : List ℤ :=
  audio.map (fun s => int16OfInt (pyInt (s * 32767)))

end

lemma tableMap : scoreFreqTable = scoreKeySemis.map (fun p => (p.1, etFreq p.2)) := by
  simp only [scoreFreqTable, scoreKeySemis, List.map_flatMap, List.map_map]
  rfl

lemma lookup_map_snd (f : ℤ → ℝ) (k : String) :
    ∀ l : List (String × ℤ),
      (l.map (fun p => (p.1, f p.2))).lookup k = (l.lookup k).map f := by
  intro l
  induction l with
  | nil => simp
  | cons p rest ih =>
    obtain ⟨a, b⟩ := p
    by_cases h : k == a <;> simp [List.lookup_cons, h, ih]

lemma semisLookup :
    ∀ oct : ℕ, oct < 7 → 2 ≤ oct → ∀ i : ℕ, i < 12 →
      scoreKeySemis.lookup (NOTE_NAMES.getD i "" ++ toString oct)
        = some (((oct : ℤ) - 4) * 12 + ((i : ℤ) - 9)) := by decide

lemma zLookupNone : scoreKeySemis.lookup "Z9" = none := by decide

lemma scoreLookupZ9 : scoreFreqTable.lookup "Z9" = none := by
  rw [tableMap, lookup_map_snd, zLookupNone]
  rfl

/-- Claim C8: for every pitch symbol not present in the frequency table, the
pitch resolver (in both variants) returns the fallback 440 Hz; resolution is
total, so it never raises. -/
theorem C8_claim (p : String) :
    (scoreFreqTable.lookup p = none → scoreGetFrequency p = 440) ∧
    (electricNoteFrequencies.lookup p = none → electricGetFrequency p = 440) := by
  constructor
  · intro h
    simp [scoreGetFrequency, h]
  · intro h
    simp [electricGetFrequency, h]

/-- Witness for C8 at the unknown symbol "Z9". -/
theorem C8_witness :
    scoreGetFrequency "Z9" = 440 ∧ electricGetFrequency "Z9" = 440 :=
  ⟨(C8_claim "Z9").1 scoreLookupZ9, (C8_claim "Z9").2 (by decide)⟩

/-- Claim C4 (amended): for each of the 12 semitone names and each octave in
2–6, the generated pitch table of `music_composer_with_score.py` resolves to
the equal-temperament frequency `440 * 2^(semitones_from_A4/12)`. -/
theorem C4_claim (i oct : ℕ) (hi : i < 12) (h2 : 2 ≤ oct) (h6 : oct ≤ 6) :
    scoreGetFrequency (NOTE_NAMES.getD i "" ++ toString oct)
      = 440 * (2 : ℝ) ^ (((((oct : ℤ) - 4) * 12 + ((i : ℤ) - 9) : ℤ) : ℝ) / 12) := by
  have h := semisLookup oct (by omega) h2 i hi
  unfold scoreGetFrequency
  rw [tableMap, lookup_map_snd, h]
  rfl

/-- Witness for C4 at "A4" (name index 9, octave 4), whose equal-temperament
exponent is zero. -/
theorem C4_witness :
    scoreGetFrequency (NOTE_NAMES.getD 9 "" ++ toString 4)
      = 440 * (2 : ℝ) ^ (((((4 : ℤ) - 4) * 12 + ((9 : ℤ) - 9) : ℤ) : ℝ) / 12) := by
  have h := C4_claim 9 4 (by decide) (by decide) (by decide)
  simpa using h

/-- Counterexample for C4 as stated: the hand-maintained table of
`electric_music_composer.py` does not cover octave 2, so "C2" resolves to the
440 fallback instead of the equal-temperament value `440 * 2^(-33/12)`. -/
theorem C4_counterexample :
    ((electricGetFrequency "C2" : ℚ) : ℝ) ≠ 440 * (2 : ℝ) ^ (((-33 : ℤ) : ℝ) / 12) := by
  have h1 : electricGetFrequency "C2" = 440 := by decide
  have h2 : (2 : ℝ) ^ (((-33 : ℤ) : ℝ) / 12) < 1 :=
    Real.rpow_lt_one_of_one_lt_of_neg (by norm_num) (by norm_num)
  intro h
  rw [h1] at h
  push_cast at h
  nlinarith

lemma le_foldl_max (l : List ℝ) : ∀ m0 : ℝ, m0 ≤ l.foldl (fun m x => max m |x|) m0 := by
  induction l with
  | nil => intro m0; exact le_refl m0
  | cons a t ih =>
    intro m0
    exact le_trans (le_max_left m0 |a|) (ih (max m0 |a|))

lemma abs_le_foldl_max (l : List ℝ) :
    ∀ m0 : ℝ, ∀ x ∈ l, |x| ≤ l.foldl (fun m x => max m |x|) m0 := by
  induction l with
  | nil => intro m0 x hx; cases hx
  | cons a t ih =>
    intro m0 x hx
    rcases List.mem_cons.mp hx with h | h
    · subst h
      exact le_trans (le_max_right m0 |x|) (le_foldl_max t (max m0 |x|))
    · exact ih (max m0 |a|) x h

lemma abs_le_peak {l : List ℝ} {x : ℝ} (hx : x ∈ l) : |x| ≤ peak l :=
  abs_le_foldl_max l 0 x hx

lemma foldl_max_mul (k : ℝ) (l : List ℝ) :
    ∀ m0 : ℝ, l.foldl (fun m x => max m |x|) m0 * |k|
      = (l.map (fun x => x * k)).foldl (fun m x => max m |x|) (m0 * |k|) := by
  induction l with
  | nil => intro m0; rfl
  | cons a t ih =>
    intro m0
    have h : max m0 |a| * |k| = max (m0 * |k|) |a * k| := by
      rw [abs_mul]
      exact (max_mul_of_nonneg _ _ (abs_nonneg k))
    simp only [List.map_cons, List.foldl_cons, ih (max m0 |a|), h]

lemma peak_map_mul (k : ℝ) (l : List ℝ) :
    peak (l.map (fun x => x * k)) = peak l * |k| := by
  unfold peak
  have h := foldl_max_mul k l 0
  rw [zero_mul] at h
  exact h.symm

/-- Claim C2: the mixed buffer is normalized so that its peak absolute
amplitude is exactly 0.9 (scaling by `0.9 / peak`) whenever the summed mix has
a positive peak, and is left untouched — all-zero, with no division — whenever
the peak is zero. -/
theorem C2_claim (mix : List ℝ) :
    (0 < peak mix → peak (normalizeMix mix) = 9/10) ∧
    (peak mix = 0 → normalizeMix mix = mix ∧ ∀ x ∈ mix, x = 0) := by
  constructor
  · intro hp
    have hne : peak mix ≠ 0 := ne_of_gt hp
    have hfun : (fun x : ℝ => x / peak mix * (9/10))
        = (fun x : ℝ => x * (9 / (10 * peak mix))) := by
      funext x
      rw [div_mul_eq_mul_div, mul_div_assoc, div_div]
    rw [normalizeMix, if_pos hp, hfun, peak_map_mul]
    rw [abs_of_pos (by positivity)]
    field_simp
    ring
  · intro hp
    refine ⟨by rw [normalizeMix, if_neg (by rw [hp]; exact lt_irrefl 0)], ?_⟩
    intro x hx
    have h := abs_le_peak hx
    rw [hp] at h
    exact abs_eq_zero.mp (le_antisymm h (abs_nonneg x))

/-- Witness for C2 on the one-sample mix `[1/2]`. -/
theorem C2_witness : peak (normalizeMix [(1:ℝ)/2]) = 9/10 :=
  (C2_claim [(1:ℝ)/2]).1 (by norm_num [peak])

lemma pyInt_near {α : Type} [LinearOrderedField α] [FloorRing α] (x : α) :
    |(pyInt x : α) - x| ≤ 1 := by
  unfold pyInt
  split
  · rw [abs_le]
    constructor
    · linarith [Int.le_ceil x, Int.ceil_lt_add_one x]
    · linarith [Int.le_ceil x, Int.ceil_lt_add_one x]
  · rw [abs_le]
    constructor
    · linarith [Int.floor_le x, Int.sub_one_lt_floor x]
    · linarith [Int.floor_le x, Int.sub_one_lt_floor x]

lemma pyInt_bounds {x : ℝ} (h : |x| ≤ 32767) :
    -32768 ≤ pyInt x ∧ pyInt x ≤ 32767 := by
  rw [abs_le] at h
  unfold pyInt
  split
  · constructor
    · have : (-32768 : ℤ) ≤ ⌈(-32767 : ℝ)⌉ := by
        rw [show ((-32767 : ℝ)) = ((-32767 : ℤ) : ℝ) by norm_num, Int.ceil_intCast]
        omega
      exact le_trans this (Int.ceil_le_ceil h.1)
    · have hx0 : x ≤ 0 := le_of_lt (by assumption)
      have : ⌈x⌉ ≤ ⌈(0:ℝ)⌉ := Int.ceil_le_ceil hx0
      simp at this
      omega
  · constructor
    · have hx0 : (0:ℝ) ≤ x := le_of_not_lt (by assumption)
      have : (0:ℤ) ≤ ⌊x⌋ := Int.floor_nonneg.mpr hx0
      omega
    · have : ⌊x⌋ ≤ ⌊(32767 : ℝ)⌋ := Int.floor_le_floor h.2
      rw [show ((32767 : ℝ)) = ((32767 : ℤ) : ℝ) by norm_num, Int.floor_intCast] at this
      exact this

lemma int16OfInt_eq_self {z : ℤ} (h1 : -32768 ≤ z) (h2 : z ≤ 32767) :
    int16OfInt z = z := by
  unfold int16OfInt
  omega

/-- Claim C7 (amended): the exporter converts each sample of a buffer bounded
by 1 in absolute value to `trunc(sample * 32767)` (truncation toward zero, the
effect of `astype(np.int16)` — not rounding), and decoding each exported
integer back by dividing by 32767 differs from the pre-export float by no more
than `1/32767`. -/
theorem C7_claim (audio : List ℝ) (hb : ∀ s ∈ audio, |s| ≤ 1) :
    save_wav_samples audio = audio.map (fun s => pyInt (s * 32767)) ∧
    ∀ s ∈ audio, |((pyInt (s * 32767) : ℤ) : ℝ) / 32767 - s| ≤ 1 / 32767 := by
  constructor
  · unfold save_wav_samples
    apply List.map_congr_left
    intro s hs
    have hscaled : |s * 32767| ≤ 32767 := by
      rw [abs_mul]
      have := hb s hs
      rw [show |(32767 : ℝ)| = 32767 by norm_num]
      nlinarith [abs_nonneg s]
    obtain ⟨hlo, hhi⟩ := pyInt_bounds hscaled
    exact int16OfInt_eq_self hlo hhi
  · intro s hs
    have hnear := pyInt_near (s * 32767)
    have heq : ((pyInt (s * 32767) : ℤ) : ℝ) / 32767 - s
        = (((pyInt (s * 32767) : ℤ) : ℝ) - s * 32767) / 32767 := by
      field_simp
      ring
    rw [heq, abs_div, show |(32767 : ℝ)| = 32767 by norm_num]
    exact div_le_div_of_nonneg_right hnear (by norm_num) |>.trans_eq rfl

/-- Witness for C7 on the one-sample buffer `[1/2]`. -/
theorem C7_witness :
    save_wav_samples [(1:ℝ)/2] = [pyInt ((1:ℝ)/2 * 32767)] :=
  (C7_claim [(1:ℝ)/2] (by norm_num [abs_le])).1

/-- Counterexample for C7 as stated: at sample `1/2` the code truncates
`16383.5` to `16383`, while `round(sample * 32767)` is `16384`. -/
theorem C7_counterexample :
    save_wav_samples [(1:ℝ)/2] = [16383] ∧
    round ((1:ℝ)/2 * 32767) = 16384 ∧ (16383 : ℤ) ≠ 16384 := by
  refine ⟨?_, ?_, by decide⟩
  · have h : pyInt ((1:ℝ)/2 * 32767) = 16383 := by
      unfold pyInt
      rw [if_neg (by norm_num)]
      rw [show ((1:ℝ)/2 * 32767) = 32767/2 by norm_num]
      rw [Int.floor_eq_iff]
      norm_num
    simp only [save_wav_samples, List.map_cons, List.map_nil]
    rw [h]
    decide
  · rw [round_eq]
    norm_num

lemma linspace01_length (k : ℕ) : (linspace01 k).length = k := by
  rw [linspace01, List.length_map, List.length_range]

lemma linspace10_length (k : ℕ) : (linspace10 k).length = k := by
  rw [linspace10, List.length_map, List.length_range]

lemma linspace_length (a b : ℝ) (n : ℕ) : (linspace a b n).length = n := by
  rw [linspace, List.length_map, List.length_range]

lemma ramp_bounds {k i : ℕ} (hik : i < k) :
    0 ≤ (i : ℚ) / ((k : ℚ) - 1) ∧ (i : ℚ) / ((k : ℚ) - 1) ≤ 1 := by
  by_cases hk : k = 1
  · subst hk
    interval_cases i
    norm_num
  · have hk2 : 2 ≤ k := by omega
    have hden : (0 : ℚ) < (k : ℚ) - 1 := by
      have : (2 : ℚ) ≤ (k : ℚ) := by exact_mod_cast hk2
      linarith
    constructor
    · positivity
    · rw [div_le_one hden]
      have : (i : ℚ) + 1 ≤ (k : ℚ) := by exact_mod_cast hik
      linarith

lemma linspace01_mem {k : ℕ} {x : ℚ} (hx : x ∈ linspace01 k) : 0 ≤ x ∧ x ≤ 1 := by
  rw [linspace01] at hx
  obtain ⟨i, hik, rfl⟩ := List.mem_map.mp hx
  exact ramp_bounds (List.mem_range.mp hik)

lemma linspace10_mem {k : ℕ} {x : ℚ} (hx : x ∈ linspace10 k) : 0 ≤ x ∧ x ≤ 1 := by
  rw [linspace10] at hx
  obtain ⟨i, hik, rfl⟩ := List.mem_map.mp hx
  obtain ⟨h0, h1⟩ := ramp_bounds (List.mem_range.mp hik)
  constructor <;> linarith

lemma mem_writeHead {l p : List ℚ} {x : ℚ} (hx : x ∈ writeHead l p) :
    x ∈ p ∨ x ∈ l := by
  rcases List.mem_append.mp hx with h | h
  · exact Or.inl h
  · exact Or.inr (List.mem_of_mem_drop h)

lemma mem_writeTail {l s : List ℚ} {x : ℚ} (hx : x ∈ writeTail l s) :
    x ∈ s ∨ x ∈ l := by
  rcases List.mem_append.mp hx with h | h
  · exact Or.inr (List.mem_of_mem_take h)
  · exact Or.inl h

lemma writeHead_length {l p : List ℚ} (h : p.length ≤ l.length) :
    (writeHead l p).length = l.length := by
  simp [writeHead]
  omega

lemma writeTail_length {l s : List ℚ} (h : s.length ≤ l.length) :
    (writeTail l s).length = l.length := by
  simp [writeTail]
  omega

lemma scoreAttackStage_length (samples : ℕ) (attack : ℚ) :
    (scoreAttackStage samples attack).length = samples := by
  unfold scoreAttackStage
  split
  · rename_i ha
    rw [writeHead_length (by rw [linspace01_length, List.length_replicate]; omega)]
    exact List.length_replicate samples 1
  · exact List.length_replicate samples 1

lemma scoreAttackStage_mem (samples : ℕ) (attack : ℚ) :
    ∀ x ∈ scoreAttackStage samples attack, 0 ≤ x ∧ x ≤ 1 := by
  intro x hx
  unfold scoreAttackStage at hx
  split at hx
  · rcases mem_writeHead hx with h | h
    · exact linspace01_mem h
    · rw [List.eq_of_mem_replicate h]
      norm_num
  · rw [List.eq_of_mem_replicate hx]
    norm_num

lemma scoreEnvelope_length (samples : ℕ) (attack release : ℚ) :
    (scoreEnvelope samples attack release).length = samples := by
  unfold scoreEnvelope
  split
  · rename_i hr
    rw [writeTail_length (by rw [linspace10_length, scoreAttackStage_length]; omega)]
    exact scoreAttackStage_length samples attack
  · exact scoreAttackStage_length samples attack

lemma scoreEnvelope_mem (samples : ℕ) (attack release : ℚ) :
    ∀ x ∈ scoreEnvelope samples attack release, 0 ≤ x ∧ x ≤ 1 := by
  intro x hx
  unfold scoreEnvelope at hx
  split at hx
  · rcases mem_writeTail hx with h | h
    · exact linspace10_mem h
    · exact scoreAttackStage_mem samples attack x h
  · exact scoreAttackStage_mem samples attack x hx

lemma score_apply_envelope_length (wave : List ℝ) (d attack release : ℚ) :
    (score_apply_envelope wave d attack release).length = wave.length := by
  simp [score_apply_envelope, List.length_zipWith, scoreEnvelope_length]

lemma electricAttackStage_some (samples : ℕ) (attack : ℚ)
    (ha : pyInt (attack * (SAMPLE_RATE:ℚ)) ≤ (samples : ℤ)) :
    ∃ e1, electricAttackStage samples attack = some e1 ∧
      e1.length = samples ∧ ∀ x ∈ e1, 0 ≤ x ∧ x ≤ 1 := by
  have base : ∀ y : ℚ, y ∈ List.replicate samples (1:ℚ) → 0 ≤ y ∧ y ≤ 1 := by
    intro y hy
    rw [List.eq_of_mem_replicate hy]
    norm_num
  unfold electricAttackStage
  by_cases h0 : 0 < pyInt (attack * (SAMPLE_RATE:ℚ))
  · rw [if_pos h0, if_pos ha]
    refine ⟨_, rfl, ?_, ?_⟩
    · rw [writeHead_length (by rw [linspace01_length, List.length_replicate]; omega),
        List.length_replicate]
    · intro x hx
      rcases mem_writeHead hx with h | h
      · exact linspace01_mem h
      · exact base x h
  · rw [if_neg h0]
    exact ⟨_, rfl, List.length_replicate samples 1, base⟩

lemma electricEnvelope_some (samples : ℕ) (attack release : ℚ)
    (ha : pyInt (attack * (SAMPLE_RATE:ℚ)) ≤ (samples : ℤ))
    (hr : pyInt (release * (SAMPLE_RATE:ℚ)) ≤ (samples : ℤ)) :
    ∃ env, electricEnvelope samples attack release = some env ∧
      env.length = samples ∧ ∀ x ∈ env, 0 ≤ x ∧ x ≤ 1 := by
  obtain ⟨e1, he1, hlen1, hmem1⟩ := electricAttackStage_some samples attack ha
  unfold electricEnvelope
  rw [he1]
  by_cases h0 : 0 < pyInt (release * (SAMPLE_RATE:ℚ))
  · refine ⟨writeTail e1 (linspace10 (pyInt (release * (SAMPLE_RATE:ℚ))).toNat),
      ?_, ?_, ?_⟩
    · simp only [Option.some_bind]
      rw [if_pos h0, if_pos hr]
    · rw [writeTail_length (by rw [linspace10_length, hlen1]; omega), hlen1]
    · intro x hx
      rcases mem_writeTail hx with h | h
      · exact linspace10_mem h
      · exact hmem1 x h
  · refine ⟨e1, ?_, hlen1, hmem1⟩
    simp only [Option.some_bind]
    rw [if_neg h0]

lemma zip_env_abs_le (wave : List ℝ) (env : List ℚ) (hlen : env.length = wave.length)
    (hb : ∀ x ∈ env, 0 ≤ x ∧ x ≤ 1) (i : ℕ) :
    |(wave.zipWith (fun w e => w * e) (env.map (fun (e : ℚ) => (e : ℝ)))).getD i 0|
      ≤ |wave.getD i 0| := by
  by_cases hi : i < wave.length
  · have hzl : (wave.zipWith (fun w e => w * e)
        (env.map (fun (e : ℚ) => (e : ℝ)))).length = wave.length := by
      rw [List.length_zipWith, List.length_map, hlen, min_self]
    have hie : i < env.length := by omega
    rw [List.getD_eq_getElem _ _ (by omega : i < (wave.zipWith (fun w e => w * e)
        (env.map (fun (e : ℚ) => (e : ℝ)))).length),
      List.getD_eq_getElem _ _ hi, List.getElem_zipWith, List.getElem_map]
    obtain ⟨h0, h1⟩ := hb (env[i]) (List.getElem_mem hie)
    rw [abs_mul]
    have habs : |((env[i] : ℚ) : ℝ)| ≤ 1 := by
      rw [abs_of_nonneg (by exact_mod_cast h0)]
      exact_mod_cast h1
    exact mul_le_of_le_one_right (abs_nonneg _) habs
  · rw [List.getD_eq_default _ _ (by
      rw [List.length_zipWith, List.length_map, hlen, min_self]; omega)]
    simp [abs_nonneg]

/-- Claim C5 (amended): the score-variant envelope shaper never errors: it
applies a ramp only when the ramp is strictly shorter than the buffer
(skipping it entirely otherwise, rather than clamping it), the built
multiplier always has the buffer's length with every entry in `[0, 1]` (no
negative values, no amplitude wrap-around), and when both ramps are at least
the buffer length the multiplier is all ones.  (The electric variant instead
raises whenever a ramp is longer than the buffer — see the counterexample.) -/
theorem C5_claim (samples : ℕ) (attack release : ℚ) :
    (scoreEnvelope samples attack release).length = samples ∧
    (∀ x ∈ scoreEnvelope samples attack release, 0 ≤ x ∧ x ≤ 1) ∧
    ((samples : ℤ) ≤ pyInt (attack * (SAMPLE_RATE : ℚ)) →
      (samples : ℤ) ≤ pyInt (release * (SAMPLE_RATE : ℚ)) →
      scoreEnvelope samples attack release = List.replicate samples 1) := by
  refine ⟨scoreEnvelope_length samples attack release,
    scoreEnvelope_mem samples attack release, ?_⟩
  intro ha hr
  rw [scoreEnvelope, if_neg (by omega), scoreAttackStage, if_neg (by omega)]

/-- Witness for C5 at a 3-sample buffer whose default-length ramps are both
longer than the buffer: the score variant returns all ones. -/
theorem C5_witness :
    (scoreEnvelope 3 (1/20) (1/10)).length = 3 ∧
    scoreEnvelope 3 (1/20) (1/10) = List.replicate 3 1 ∧
    (0 : ℚ) ≤ 1 ∧ (1 : ℚ) ≤ 1 := by
  have h3 := (C5_claim 3 (1/20) (1/10)).2.2
    (by norm_num [pyInt, SAMPLE_RATE]) (by norm_num [pyInt, SAMPLE_RATE])
  refine ⟨(C5_claim 3 (1/20) (1/10)).1, h3,
    (C5_claim 3 (1/20) (1/10)).2.1 1 ?_⟩
  rw [h3]
  simp

/-- Counterexample for C5 as stated: on a 441-sample buffer (0.01 s) the
electric-variant envelope shaper does not clamp the default 2205-sample attack
ramp — the NumPy slice assignment raises a broadcast error. -/
theorem C5_counterexample :
    electric_apply_envelope (List.replicate 441 (0 : ℝ)) (1/100) (1/20) (1/10)
      = none := by
  unfold electric_apply_envelope
  rw [List.length_replicate]
  have ha : pyInt ((1:ℚ)/20 * (SAMPLE_RATE : ℚ)) = 2205 := by
    norm_num [pyInt, SAMPLE_RATE]
  have henv : electricEnvelope 441 (1/20) (1/10) = none := by
    unfold electricEnvelope electricAttackStage
    rw [ha]
    norm_num
  rw [henv]
  rfl

/-- Claim C10: whenever the buffer is at least as long as each ramp, every
entry of the envelope multiplier (in both variants) lies in `[0, 1]`, so the
shaped output never exceeds the input in absolute value elementwise. -/
theorem C10_claim (wave : List ℝ) (d attack release : ℚ)
    (ha : pyInt (attack * (SAMPLE_RATE : ℚ)) ≤ (wave.length : ℤ))
    (hr : pyInt (release * (SAMPLE_RATE : ℚ)) ≤ (wave.length : ℤ)) :
    (∀ x ∈ scoreEnvelope wave.length attack release, 0 ≤ x ∧ x ≤ 1) ∧
    (∀ i : ℕ, |(score_apply_envelope wave d attack release).getD i 0|
      ≤ |wave.getD i 0|) ∧
    (∃ out, electric_apply_envelope wave d attack release = some out ∧
      ∀ i : ℕ, |out.getD i 0| ≤ |wave.getD i 0|) := by
  refine ⟨scoreEnvelope_mem _ attack release, ?_, ?_⟩
  · intro i
    exact zip_env_abs_le wave _ (scoreEnvelope_length _ attack release)
      (scoreEnvelope_mem _ attack release) i
  · obtain ⟨env, henv, hlen, hmem⟩ := electricEnvelope_some wave.length attack release ha hr
    refine ⟨wave.zipWith (fun w e => w * e) (env.map (fun (e : ℚ) => (e : ℝ))), ?_, ?_⟩
    · rw [electric_apply_envelope, henv]
      rfl
    · intro i
      exact zip_env_abs_le wave env hlen hmem i

/-- Witness for C10 on the one-sample buffer `[1]` with a one-sample attack
ramp and a zero-length release ramp. -/
theorem C10_witness :
    scoreEnvelope [(1 : ℝ)].length (1/44100) 0 = [1] ∧
    ((0 : ℚ) ≤ 1 ∧ (1 : ℚ) ≤ 1) ∧
    |(score_apply_envelope [(1 : ℝ)] 1 (1/44100) 0).getD 0 0|
      ≤ |([(1 : ℝ)]).getD 0 0| := by
  have hlen : [(1 : ℝ)].length = 1 := rfl
  have henv : scoreEnvelope [(1 : ℝ)].length (1/44100) 0 = [1] := by
    rw [hlen]
    unfold scoreEnvelope scoreAttackStage
    norm_num [pyInt, SAMPLE_RATE]
  have hhyp1 : pyInt ((1:ℚ)/44100 * (SAMPLE_RATE : ℚ)) ≤ (([(1 : ℝ)]).length : ℤ) := by
    rw [hlen]
    norm_num [pyInt, SAMPLE_RATE]
  have hhyp2 : pyInt ((0:ℚ) * (SAMPLE_RATE : ℚ)) ≤ (([(1 : ℝ)]).length : ℤ) := by
    rw [hlen]
    norm_num [pyInt, SAMPLE_RATE]
  refine ⟨henv, ?_, (C10_claim [(1 : ℝ)] 1 (1/44100) 0 hhyp1 hhyp2).2.1 0⟩
  refine (C10_claim [(1 : ℝ)] 1 (1/44100) 0 hhyp1 hhyp2).1 1 ?_
  rw [henv]
  simp

lemma numSamples_eq_floor {d : ℚ} (hd : 0 ≤ d) :
    numSamples d = ⌊d * (SAMPLE_RATE : ℚ)⌋ := by
  unfold numSamples pyInt
  rw [if_neg (not_lt.mpr (by positivity)), mul_comm]

lemma numSamples_nonneg {d : ℚ} (hd : 0 ≤ d) : 0 ≤ numSamples d := by
  rw [numSamples_eq_floor hd]
  exact Int.floor_nonneg.mpr (by positivity)

lemma gen_length (g : ℝ → ℝ) (d attack release : ℚ) (hd : 0 ≤ numSamples d) :
    ((mkTimes d).map (fun t => score_apply_envelope (t.map g) d attack release)).map
      List.length = some (numSamples d).toNat := by
  rw [mkTimes, if_neg (not_lt.mpr hd)]
  simp only [Option.map_some']
  rw [score_apply_envelope_length, List.length_map, linspace_length]

/-- Claim C1 (amended): for every positive duration, each score-variant
oscillator generator (sine, square, sawtooth, pad) returns a buffer whose
length is `int(SAMPLE_RATE * duration)` — that is, `⌊duration * 44100⌋`
(truncation), not `round(duration * 44100)`.  (The electric variant computes
the same length but raises on buffers shorter than its envelope ramps.) -/
theorem C1_claim (freq : ℝ) (d v : ℚ) (hd : 0 < d) :
    (sine_wave freq d v).map List.length = some (⌊d * (SAMPLE_RATE : ℚ)⌋.toNat) ∧
    (square_wave freq d v).map List.length = some (⌊d * (SAMPLE_RATE : ℚ)⌋.toNat) ∧
    (sawtooth_wave freq d v).map List.length = some (⌊d * (SAMPLE_RATE : ℚ)⌋.toNat) ∧
    (pad_sound freq d v).map List.length = some (⌊d * (SAMPLE_RATE : ℚ)⌋.toNat) := by
  have hd0 : 0 ≤ numSamples d := numSamples_nonneg (le_of_lt hd)
  have hfl : numSamples d = ⌊d * (SAMPLE_RATE : ℚ)⌋ := numSamples_eq_floor (le_of_lt hd)
  refine ⟨?_, ?_, ?_, ?_⟩
  · rw [sine_wave, gen_length _ _ _ _ hd0, hfl]
  · rw [square_wave, gen_length _ _ _ _ hd0, hfl]
  · rw [sawtooth_wave, gen_length _ _ _ _ hd0, hfl]
  · rw [pad_sound, gen_length _ _ _ _ hd0, hfl]

/-- Witness for C1 at frequency 440 Hz and duration `1/44100` (one sample). -/
theorem C1_witness : (sine_wave 440 (1/44100) 1).map List.length = some 1 := by
  have h := (C1_claim 440 (1/44100) 1 (by norm_num)).1
  rw [h]
  norm_num [SAMPLE_RATE]

/-- Counterexample for C1 as stated: at duration `17/441000` (so that
`duration * 44100 = 1.7`) the generated buffer has `⌊1.7⌋ = 1` sample, while
`round(duration * 44100) = 2`. -/
theorem C1_counterexample :
    (sine_wave 440 (17/441000) 1).map List.length = some 1 ∧
    round ((17/441000 : ℚ) * (SAMPLE_RATE : ℚ)) = 2 ∧ (1 : ℕ) ≠ 2 := by
  refine ⟨?_, ?_, by decide⟩
  · have hd0 : (0 : ℤ) ≤ numSamples (17/441000) := by
      norm_num [numSamples, pyInt, SAMPLE_RATE]
    rw [sine_wave, gen_length _ _ _ _ hd0]
    norm_num [numSamples, pyInt, SAMPLE_RATE]
  · rw [round_eq]
    norm_num [SAMPLE_RATE]

lemma hihat_some (r : ℕ → ℚ) (pos : ℕ) (d v : ℚ) (hd : 0 ≤ numSamples d) :
    ∃ w, hihat r pos d v = some (w, pos + (numSamples d).toNat) ∧
      w.length = (numSamples d).toNat := by
  rw [hihat, mkTimes, if_neg (not_lt.mpr hd)]
  simp only [Option.map_some']
  rw [linspace_length]
  refine ⟨_, rfl, ?_⟩
  simp [List.length_zipWith, List.length_map, List.length_range, linspace_length]

lemma snare_some (r : ℕ → ℚ) (pos : ℕ) (d v : ℚ) (hd : 0 ≤ numSamples d) :
    ∃ w, snare r pos d v = some (w, pos + (numSamples d).toNat) ∧
      w.length = (numSamples d).toNat := by
  rw [snare, mkTimes, if_neg (not_lt.mpr hd)]
  simp only [Option.map_some']
  rw [linspace_length]
  refine ⟨_, rfl, ?_⟩
  simp [List.length_zipWith, List.length_map, List.length_range, linspace_length]

/-- Claim C9 (amended): the noise percussion generators take no random-source
parameter; they read the process-wide NumPy random state at its current
cursor and advance it by the buffer length, so two successive renders with
identical explicit parameters read different draws (see the
counterexample). -/
theorem C9_claim (r : ℕ → ℚ) (pos : ℕ) (d v : ℚ) (hd : 0 ≤ numSamples d) :
    (∃ w, hihat r pos d v = some (w, pos + (numSamples d).toNat) ∧
      w.length = (numSamples d).toNat) ∧
    (∃ w, snare r pos d v = some (w, pos + (numSamples d).toNat) ∧
      w.length = (numSamples d).toNat) :=
  ⟨hihat_some r pos d v hd, snare_some r pos d v hd⟩

/-- Witness for C9: a one-sample hi-hat advances the global cursor from 0
to 1. -/
theorem C9_witness :
    (∃ w, hihat (fun n => (n : ℚ)) 0 (1/44100) 1 = some (w, 0 + (numSamples (1/44100)).toNat) ∧
      w.length = (numSamples (1/44100)).toNat) ∧
    (∃ w, snare (fun n => (n : ℚ)) 0 (1/44100) 1 = some (w, 0 + (numSamples (1/44100)).toNat) ∧
      w.length = (numSamples (1/44100)).toNat) :=
  C9_claim (fun n => (n : ℚ)) 0 (1/44100) 1
    (by norm_num [numSamples, pyInt, SAMPLE_RATE])

/-- Counterexample for C9 as stated: two hi-hat renders with identical
explicit parameters, the second starting from the global state the first
left behind, produce different buffers — reproducibility fails because the
randomness is implicit global state, not an injected parameter. -/
theorem C9_counterexample :
    hihat (fun n => (n : ℚ)) 0 (1/44100) 1 = some ([0], 1) ∧
    hihat (fun n => (n : ℚ)) 1 (1/44100) 1 = some ([(2:ℝ)/5], 2) ∧
    ([(0:ℝ)] : List ℝ) ≠ [(2:ℝ)/5] := by
  have hn : numSamples (1/44100) = 1 := by norm_num [numSamples, pyInt, SAMPLE_RATE]
  have ht : mkTimes (1/44100) = some [(0 : ℝ)] := by
    rw [mkTimes, hn, if_neg (by norm_num)]
    rw [show ((1:ℤ).toNat) = 1 from rfl]
    rw [linspace, show List.range 1 = [0] from rfl]
    norm_num
  refine ⟨?_, ?_, by norm_num⟩
  · rw [hihat, ht]
    simp only [Option.map_some']
    rw [show List.range ([(0:ℝ)].length) = [0] from rfl]
    norm_num [Real.exp_zero]
  · rw [hihat, ht]
    simp only [Option.map_some']
    rw [show List.range ([(0:ℝ)].length) = [0] from rfl]
    norm_num [Real.exp_zero]

lemma mapIdx_id : ∀ l : List ℝ, l.mapIdx (fun _ a => a) = l := by
  intro l
  induction l with
  | nil => rfl
  | cons a t ih => simpa [List.mapIdx_cons] using ih

lemma overlayAdd_nil (audio : List ℝ) (s : ℤ) : overlayAdd audio s [] = audio := by
  unfold overlayAdd
  have h : (fun (i : ℕ) (a : ℝ) =>
      a + if s ≤ (i : ℤ) then ([] : List ℝ).getD ((i : ℤ) - s).toNat 0 else 0)
      = fun _ a => a := by
    funext i a
    simp [List.getD]
  rw [h, mapIdx_id]

lemma overlayAdd_length (audio : List ℝ) (s : ℤ) (wave : List ℝ) :
    (overlayAdd audio s wave).length = audio.length := by
  rw [overlayAdd, List.length_mapIdx]

lemma render_fold_length (r : ℕ → ℚ) (itype : String) (bd : ℚ) :
    ∀ (notes : List Note) (acc res : List ℝ × ℕ),
      notes.foldlM (fun (st : List ℝ × ℕ) note =>
        (noteWave r st.2 itype note bd).map
          (fun wp => (overlayAdd st.1 (startSample note.start_beat bd) wp.1, wp.2)))
        acc = some res →
      res.1.length = acc.1.length := by
  intro notes
  induction notes with
  | nil =>
    intro acc res h
    simp only [List.foldlM_nil] at h
    cases h
    rfl
  | cons n t ih =>
    intro acc res h
    rw [List.foldlM_cons] at h
    cases hw : noteWave r acc.2 itype n bd with
    | none => rw [hw] at h; simp at h
    | some wp =>
      rw [hw] at h
      simp only [Option.map_some', Option.some_bind] at h
      have := ih _ _ h
      rw [this, overlayAdd_length]

lemma render_track_length (r : ℕ → ℚ) (pos : ℕ) (track : Track)
    (tb bd : ℚ) (out : List ℝ) (pos2 : ℕ)
    (h : render_track r pos track tb bd = some (out, pos2)) :
    out.length = (pyInt ((SAMPLE_RATE : ℚ) * (tb * bd))).toNat := by
  rw [render_track] at h
  cases hf : track.notes.foldlM (fun (st : List ℝ × ℕ) note =>
      (noteWave r st.2 track.instrument_type note bd).map
        (fun wp => (overlayAdd st.1 (startSample note.start_beat bd) wp.1, wp.2)))
      (List.replicate (pyInt ((SAMPLE_RATE : ℚ) * (tb * bd))).toNat (0 : ℝ), pos) with
  | none => rw [hf] at h; simp at h
  | some st =>
    rw [hf] at h
    simp only [Option.map_some'] at h
    have hlen := render_fold_length r track.instrument_type bd track.notes _ _ hf
    rw [List.length_replicate] at hlen
    cases h
    rw [List.length_map, hlen]

lemma noteWave_bass (r : ℕ → ℚ) (pos : ℕ) (note : Note) (bd : ℚ) :
    noteWave r pos "bass" note bd
      = (finger_bass (scoreGetFrequency note.pitch / 2) (note.duration * bd)
          note.velocity).map (fun w => (w, pos)) := by
  rw [noteWave, if_neg (by decide), if_neg (by decide), if_pos rfl]

lemma finger_bass_zero (f : ℝ) (v : ℚ) : finger_bass f 0 v = some [] := by
  rw [finger_bass, mkTimes,
    show numSamples 0 = 0 from by norm_num [numSamples, pyInt, SAMPLE_RATE],
    if_neg (by norm_num)]
  rw [show ((0:ℤ).toNat) = 0 from rfl, linspace,
    show List.range 0 = [] from rfl]
  rfl

/-- Claim C6 (amended): the track renderer performs no duration validation.
A zero-duration note on a bass track synthesizes an empty buffer and is
effectively skipped — rendering proceeds and still returns a full-length
buffer (equal to rendering without that note).  A negative-duration note,
however, makes the synthesis raise (see the counterexample). -/
theorem C6_claim (r : ℕ → ℚ) (pos : ℕ) (name : String) (muted : Bool)
    (vol : ℚ) (n0 : Note) (rest : List Note) (tb bd : ℚ)
    (h0 : n0.duration = 0) :
    render_track r pos ⟨name, "bass", n0 :: rest, muted, vol⟩ tb bd
      = render_track r pos ⟨name, "bass", rest, muted, vol⟩ tb bd ∧
    ∀ out pos2,
      render_track r pos ⟨name, "bass", n0 :: rest, muted, vol⟩ tb bd
        = some (out, pos2) →
      out.length = (pyInt ((SAMPLE_RATE : ℚ) * (tb * bd))).toNat := by
  constructor
  · rw [render_track, render_track]
    simp only [List.foldlM_cons]
    have hw : noteWave r pos "bass" n0 bd = some ([], pos) := by
      rw [noteWave_bass, h0, zero_mul, finger_bass_zero]
      rfl
    rw [hw]
    simp only [Option.map_some', Option.bind_eq_bind, Option.some_bind, overlayAdd_nil]
  · intro out pos2 h
    exact render_track_length r pos _ tb bd out pos2 h

/-- Witness for C6: a zero-duration bass note is dropped without error. -/
theorem C6_witness :
    render_track (fun _ => 0) 0 ⟨"b", "bass", [⟨"C4", 0, 0, 1⟩], false, 1⟩ 1 (1/2)
      = render_track (fun _ => 0) 0 ⟨"b", "bass", [], false, 1⟩ 1 (1/2) :=
  (C6_claim (fun _ => 0) 0 "b" false 1 ⟨"C4", 0, 0, 1⟩ [] 1 (1/2) rfl).1

/-- Counterexample for C6 as stated: a negative-duration bass note is not
validated or skipped — synthesis raises (NumPy `linspace` with a negative
sample count), so rendering returns no buffer at all. -/
theorem C6_counterexample :
    render_track (fun _ => 0) 0 ⟨"b", "bass", [⟨"A4", 0, -1, 4/5⟩], false, 4/5⟩
      8 (1/2) = none := by
  rw [render_track]
  simp only [List.foldlM_cons]
  have hnum : numSamples (-(1/2) : ℚ) = -22050 := by
    unfold numSamples pyInt
    rw [if_pos (by norm_num [SAMPLE_RATE])]
    rw [show ((SAMPLE_RATE : ℚ) * (-(1/2))) = ((-22050 : ℤ) : ℚ) from by
      norm_num [SAMPLE_RATE], Int.ceil_intCast]
  have hw : noteWave (fun _ => 0) 0 "bass" ⟨"A4", 0, -1, 4/5⟩ (1/2) = none := by
    rw [noteWave_bass]
    rw [show ((⟨"A4", 0, -1, 4/5⟩ : Note).duration * (1/2) : ℚ) = -(1/2) from by norm_num]
    rw [finger_bass, mkTimes, hnum, if_pos (by norm_num)]
    rfl
  rw [hw]
  rfl

lemma scoreGetFrequencyA4 : scoreGetFrequency "A4" = 440 := by
  rw [scoreGetFrequency, tableMap, lookup_map_snd,
    show scoreKeySemis.lookup "A4" = some 0 from by decide]
  show etFreq 0 = 440
  rw [etFreq]
  norm_num [Real.rpow_zero]

/-- Claim C3 (amended): at BPM 120 (`beat_seconds = 1/2`), rendering the Note
`{pitch "A4", start 2, duration 1, velocity 0.9}` on a bass track writes its
synthesized wave additively at offset `int(2 * 0.5 * 44100) = 44100` of the
zero buffer, the synthesized wave has `int(1 * 0.5 * 44100) = 22050` samples
and uses frequency 220 Hz (the resolved A4 frequency halved per the bass
octave drop); in general `start_sample = int(note.start * beat_seconds *
sample_rate)` — truncation (equal to `floor` for nonnegative starts), not
`round`. -/
theorem C3_claim (r : ℕ → ℚ) (pos : ℕ) (name : String) (muted : Bool)
    (vol : ℚ) :
    scoreGetFrequency "A4" / 2 = 220 ∧
    startSample 2 (1/2) = 44100 ∧
    (∃ w, finger_bass (scoreGetFrequency "A4" / 2) (1 * (1/2)) (9/10) = some w ∧
      w.length = 22050 ∧
      render_track r pos ⟨name, "bass", [⟨"A4", 2, 1, 9/10⟩], muted, vol⟩ 8 (1/2)
        = some ((overlayAdd (List.replicate 176400 0) 44100 w).map
            (fun x => x * (vol : ℝ)), pos)) ∧
    (∀ s bd : ℚ, 0 ≤ s → 0 ≤ bd →
      startSample s bd = ⌊s * bd * (SAMPLE_RATE : ℚ)⌋) := by
  have hA4 := scoreGetFrequencyA4
  have hstart : startSample 2 (1/2) = 44100 := by
    norm_num [startSample, pyInt, SAMPLE_RATE]
  have hn : numSamples ((1:ℚ) * (1/2)) = 22050 := by
    norm_num [numSamples, pyInt, SAMPLE_RATE]
  have hts : (pyInt ((SAMPLE_RATE : ℚ) * ((8:ℚ) * (1/2)))).toNat = 176400 := by
    norm_num [pyInt, SAMPLE_RATE]
    decide
  refine ⟨by rw [hA4]; norm_num, hstart, ?_, ?_⟩
  · cases hfb : finger_bass (scoreGetFrequency "A4" / 2) (1 * (1/2)) (9/10) with
    | none =>
      exfalso
      have := gen_length
        (fun ti => (Real.sin (2 * Real.pi * (scoreGetFrequency "A4" / 2) * ti) * (7/10) +
          Real.sin (2 * Real.pi * (scoreGetFrequency "A4" / 2 * 2) * ti) * (1/5) +
          Real.sin (2 * Real.pi * (scoreGetFrequency "A4" / 2 * 3) * ti) * (1/10)) *
            ((9/10 : ℚ) : ℝ))
        (1 * (1/2)) (1/50) (3/20) (by rw [hn]; norm_num)
      rw [← finger_bass, hfb] at this
      simp at this
    | some w =>
      refine ⟨w, rfl, ?_, ?_⟩
      · have := gen_length
          (fun ti => (Real.sin (2 * Real.pi * (scoreGetFrequency "A4" / 2) * ti) * (7/10) +
            Real.sin (2 * Real.pi * (scoreGetFrequency "A4" / 2 * 2) * ti) * (1/5) +
            Real.sin (2 * Real.pi * (scoreGetFrequency "A4" / 2 * 3) * ti) * (1/10)) *
              ((9/10 : ℚ) : ℝ))
          (1 * (1/2)) (1/50) (3/20) (by rw [hn]; norm_num)
        rw [← finger_bass, hfb] at this
        simp only [Option.map_some', Option.some.injEq] at this
        rw [this, hn]
        rfl
      · rw [render_track]
        simp only [List.foldlM_cons, List.foldlM_nil]
        rw [hts, noteWave_bass]
        dsimp only
        rw [hfb]
        simp only [Option.map_some', Option.bind_eq_bind, Option.some_bind,
          Option.pure_def]
        rw [hstart]
  · intro s bd hs hbd
    unfold startSample pyInt
    rw [if_neg (not_lt.mpr (mul_nonneg (mul_nonneg hs hbd) (by norm_num)))]

/-- Witness for C3: the general truncation formula evaluated at the claim's
concrete inputs (start 2 beats, half-second beats). -/
theorem C3_witness :
    startSample 2 (1/2) = 44100 ∧
    startSample 2 (1/2) = ⌊(2 : ℚ) * (1/2) * (SAMPLE_RATE : ℚ)⌋ :=
  ⟨(C3_claim (fun _ => 0) 0 "b" false 1).2.1,
    (C3_claim (fun _ => 0) 0 "b" false 1).2.2.2 2 (1/2) (by norm_num) (by norm_num)⟩

/-- Counterexample for C3's general clause as stated: at BPM 121
(`beat_seconds = 60/121`) and start 1, the code truncates
`1 * (60/121) * 44100 ≈ 21867.77` to 21867, while rounding gives 21868. -/
theorem C3_counterexample :
    startSample 1 (60/121) ≠ round ((1 : ℚ) * (60/121) * (SAMPLE_RATE : ℚ)) := by
  have h1 : startSample 1 (60/121) = 21867 := by
    unfold startSample pyInt
    rw [if_neg (by norm_num [SAMPLE_RATE])]
    norm_num [SAMPLE_RATE]
  have h2 : round ((1 : ℚ) * (60/121) * (SAMPLE_RATE : ℚ)) = 21868 := by
    rw [round_eq]
    norm_num [SAMPLE_RATE]
  rw [h1, h2]
  decide

end Music
